import Mathlib

/-!
Verification of the github-mcp Git Manager server (src/src/index.ts): a
shallow embedding of its configuration state, its git operation handlers
(gitInit, gitPull, gitPush), its zod input validation and its tool
dispatcher, together with theorems settling the specification's claims.

External effects (child processes via execAsync, the filesystem via
fs.existsSync / fs.mkdirSync / fs.appendFileSync) are modelled by an
environment `Env` of deterministic oracles, and every operation returns,
next to its result, the list of effects it performed, in order.
-/

namespace GithubMcp

/-! ## Node `path` module (POSIX flavour), as used by the server

All string primitives are implemented by structural recursion over the
character list, so that every definition evaluates by kernel reduction. -/

/-- Split a character list on a separator character; like
`String.splitOn` for a one-character separator. -/
def splitOnCharAux (sep : Char) : List Char → List Char → List String
  | [], acc => [String.mk acc.reverse]
  | c :: rest, acc =>
    if c = sep then String.mk acc.reverse :: splitOnCharAux sep rest []
    else splitOnCharAux sep rest (c :: acc)

/-- Segments of a path string, split on the separator. -/
def splitPath (s : String) : List String := splitOnCharAux '/' s.data []

/-- JavaScript `Array.prototype.join(sep)`. -/
def joinSep (sep : String) : List String → String
  | [] => ""
  | [x] => x
  | x :: rest => x ++ sep ++ joinSep sep rest

/-- Normalisation of the segments of an absolute path: empty and `.`
segments vanish, `..` pops the previous segment (and is dropped at the
root). `acc` holds the already-normalised prefix, reversed. -/
def normAbsSegs (acc : List String) : List String → List String
  | [] => acc.reverse
  | "" :: rest => normAbsSegs acc rest
  | "." :: rest => normAbsSegs acc rest
  | ".." :: rest =>
    match acc with
    | [] => normAbsSegs [] rest
    | _ :: t => normAbsSegs t rest
  | seg :: rest => normAbsSegs (seg :: acc) rest

/-- Normalised absolute path built from a raw string. -/
def absNorm (s : String) : String :=
  "/" ++ joinSep "/" (normAbsSegs [] (splitPath s))

/-- Node `path.isAbsolute` for POSIX paths. -/
def isAbsolutePath (s : String) : Bool :=
  match s.data with
  | '/' :: _ => true
  | _ => false

/-- Node `path.resolve(p)` as called by the server: resolves `p` against the
process's current directory `cwd` when `p` is relative, and normalises. -/
def pathResolve (cwd p : String) : String :=
  if isAbsolutePath p then absNorm p else absNorm (cwd ++ "/" ++ p)

/-- Normalisation of the segments of a relative path: like the absolute
case, except leading `..` segments are kept. -/
def normRelSegs (acc : List String) : List String → List String
  | [] => acc.reverse
  | "" :: rest => normRelSegs acc rest
  | "." :: rest => normRelSegs acc rest
  | ".." :: rest =>
    match acc with
    | [] => normRelSegs [".."] rest
    | ".." :: _ => normRelSegs (".." :: acc) rest
    | _ :: t => normRelSegs t rest
  | seg :: rest => normRelSegs (seg :: acc) rest

/-- Node `path.join(a, b)`: concatenation with a separator, normalised. -/
def pathJoin (a b : String) : String :=
  if isAbsolutePath a then absNorm (a ++ "/" ++ b)
  else
    let r := joinSep "/" (normRelSegs [] (splitPath (a ++ "/" ++ b)))
    if r = "" then "." else r

/-- Node `path.dirname`. -/
def pathDirname (s : String) : String :=
  match (splitPath s).dropLast with
  | [] => "."
  | [""] => "/"
  | ps => joinSep "/" ps

/-! ## JavaScript string helpers -/

/-- JavaScript `String.prototype.includes`: substring test. -/
def strIncludes (s pat : String) : Bool :=
  s.data.tails.any (fun t => pat.data.isPrefixOf t)

/-- JavaScript `String.prototype.trim`: strip whitespace from both ends. -/
def jsTrim (s : String) : String :=
  String.mk (((s.data.dropWhile Char.isWhitespace).reverse.dropWhile Char.isWhitespace).reverse)

/-- JavaScript truthiness of a `string | undefined` value: `undefined` and
the empty string are falsy. -/
def strTruthy : Option String → Bool
  | none => false
  | some s => s ≠ ""

/-! ## Environment, effects and configuration -/

/-- The resolved value of a successful `execAsync` call. -/
structure ExecResult where
  stdout : String
  stderr : String
  deriving DecidableEq, Repr

/-- The rejection value of a failed `execAsync` call (non-zero exit or spawn
failure): the error's `message` and its captured `stderr`. -/
structure ExecError where
  message : String
  stderr : String
  deriving DecidableEq, Repr

/-- Deterministic oracles for the process's external world: the process's
current directory, the outcome of each command (by command line and working
directory), `fs.existsSync`, and `fs.mkdirSync` (`none` = created,
`some m` = failed with error message `m`). -/
structure Env where
  cwd0 : String
  exec : String → String → Except ExecError ExecResult
  existsSync : String → Bool
  mkdirErr : String → Option String

/-- One observable external effect, in the order performed. -/
inductive Effect where
  | exec (cmd : String) (cwd : String)
  | fsExists (p : String)
  | fsMkdir (p : String)
  | fsAppend (p : String)
  deriving DecidableEq, Repr

/-- The subprocess invocations of an effect trace, in order. -/
def execsOf (effs : List Effect) : List (String × String) :=
  effs.filterMap fun
    | .exec c w => some (c, w)
    | _ => none

/-- The filesystem touches of an effect trace, in order. -/
def fsOf (effs : List Effect) : List Effect :=
  effs.filter fun
    | .exec _ _ => false
    | _ => true

/-- The fixed log file name (index.ts line 27 / 311). -/
def logName : String := "github-mcp-server.log"

/-- The server's mutable global configuration: `WORKING_DIR` and `LOG_FILE`
(index.ts lines 24 and 27). -/
structure Config where
  workingDir : String
  logFile : String
  deriving DecidableEq, Repr

/-- The configuration at process start: `WORKING_DIR = process.cwd()`,
`LOG_FILE = path.join(WORKING_DIR, "github-mcp-server.log")`. -/
def initialConfig (env : Env) : Config :=
  { workingDir := env.cwd0, logFile := pathJoin env.cwd0 logName }

/-- Effects of `logToFile` (index.ts lines 34-52): check the log directory
exists, create it if missing, append the entry; a mkdir failure is swallowed
and only skips the append. -/
def logToFile (env : Env) (logFile : String) : List Effect :=
  let d := pathDirname logFile
  if env.existsSync d then [.fsExists d, .fsAppend logFile]
  else
    match env.mkdirErr d with
    | none => [.fsExists d, .fsMkdir d, .fsAppend logFile]
    | some _ => [.fsExists d, .fsMkdir d]

/-- The `\nstderr: ...` suffix JS template literals append to error
messages when `error.stderr` is truthy (non-empty). -/
def stderrSuffix (e : ExecError) : String :=
  if e.stderr = "" then "" else "\nstderr: " ++ e.stderr

/-! ## gitInit (index.ts lines 94-114) -/

/-- The message thrown by `gitInit`'s catch block. -/
def initFailMsg (e : ExecError) : String :=
  "Failed to initialize Git repository: " ++ e.message ++ stderrSuffix e

/-- The `git remote add` command line built at index.ts line 100. -/
def remoteAddCmd (remoteUrl : String) : String :=
  "git remote add origin \"" ++ remoteUrl ++ "\""

/-- The `git branch -M` command line built at index.ts line 105. -/
def branchRenameCmd (defaultBranch : String) : String :=
  "git branch -M \"" ++ defaultBranch ++ "\""

/-- The success message returned by `gitInit` (index.ts line 109). -/
def initOkMsg (workingDir : String) (defaultBranch : Option String) : String :=
  "Git repository initialized in " ++ workingDir ++ ", remote 'origin' added." ++
    (if strTruthy defaultBranch then
      " Default branch set to '" ++ defaultBranch.getD "" ++ "'." else "")

/-- `gitInit(remoteUrl, defaultBranch?)`: run `git init`, then add the
remote, then (if `defaultBranch` is truthy) rename the branch; the first
failing step aborts the rest and the catch block throws `initFailMsg`. -/
def gitInit (env : Env) (cfg : Config) (remoteUrl : String)
    (defaultBranch : Option String) : Except String String × List Effect :=
  let wd := cfg.workingDir
  let L := logToFile env cfg.logFile
  match env.exec "git init" wd with
  | .error e => (.error (initFailMsg e), L ++ [.exec "git init" wd] ++ L)
  | .ok _ =>
    match env.exec (remoteAddCmd remoteUrl) wd with
    | .error e =>
      (.error (initFailMsg e),
        L ++ [.exec "git init" wd] ++ L ++ [.exec (remoteAddCmd remoteUrl) wd] ++ L)
    | .ok _ =>
      if strTruthy defaultBranch then
        let bCmd := branchRenameCmd (defaultBranch.getD "")
        match env.exec bCmd wd with
        | .error e =>
          (.error (initFailMsg e),
            L ++ [.exec "git init" wd] ++ L ++ [.exec (remoteAddCmd remoteUrl) wd]
              ++ L ++ [.exec bCmd wd] ++ L)
        | .ok _ =>
          (.ok (initOkMsg wd defaultBranch),
            L ++ [.exec "git init" wd] ++ L ++ [.exec (remoteAddCmd remoteUrl) wd]
              ++ L ++ [.exec bCmd wd])
      else
        (.ok (initOkMsg wd defaultBranch),
          L ++ [.exec "git init" wd] ++ L ++ [.exec (remoteAddCmd remoteUrl) wd])

/-! ## gitPull (index.ts lines 119-140) -/

/-- The pull command line (index.ts lines 121-124): the branch is appended
only when truthy. -/
def pullCmd (branch : Option String) (remote : String) : String :=
  "git pull " ++ remote ++
    (if strTruthy branch then " " ++ branch.getD "" else "")

/-- The message thrown by `gitPull`'s catch block. -/
def pullFailMsg (e : ExecError) : String :=
  "Failed to pull from Git repository: " ++ e.message ++ stderrSuffix e

/-- The success message returned by `gitPull` (index.ts line 131). -/
def pullOkMsg (branch : Option String) (remote : String) (stdout : String) : String :=
  "Successfully pulled changes from remote '" ++ remote ++ "'" ++
    (if strTruthy branch then " branch '" ++ branch.getD "" ++ "'" else "") ++
    ". Output:\n" ++ (if stdout = "" then "No output" else stdout)

/-- `gitPull(branch?, remote)`: one subprocess call; on a zero exit the
result is a success whatever `stderr` holds (the "Updating" /
"Fast-forward" test only decides whether the stderr is logged); a rejection
becomes `pullFailMsg`. -/
def gitPull (env : Env) (cfg : Config) (branch : Option String)
    (remote : String) : Except String String × List Effect :=
  let wd := cfg.workingDir
  let L := logToFile env cfg.logFile
  let cmd := pullCmd branch remote
  match env.exec cmd wd with
  | .ok r =>
    let stderrLog :=
      if r.stderr ≠ "" ∧ ¬ (strIncludes r.stderr "Updating" = true)
          ∧ ¬ (strIncludes r.stderr "Fast-forward" = true) then L else []
    (.ok (pullOkMsg branch remote r.stdout),
      L ++ [.exec cmd wd] ++ stderrLog ++ L ++ L)
  | .error e =>
    (.error (pullFailMsg e), L ++ [.exec cmd wd] ++ L ++ L)

/-! ## gitPush (index.ts lines 145-186) -/

/-- The quote transformation `commitMessage.replace(/"/g, '\"')` applied at
index.ts line 151: each `"` is replaced by the JavaScript string literal
`'\"'`, which denotes the single character `"`. -/
def jsEscapeQuotes (s : String) : String :=
  String.mk (s.data.flatMap fun c => if c = '"' then ['"'] else [c])

/-- The commit command line built at index.ts line 151. -/
def commitCmd (commitMessage : String) : String :=
  "git commit -m \"" ++ jsEscapeQuotes commitMessage ++ "\""

/-- Current-branch detection (index.ts lines 153-163): run only when the
given branch is falsy; on success the trimmed stdout of
`git rev-parse --abbrev-ref HEAD` becomes the branch, on failure the branch
stays as given (detection failure is swallowed). Returns the branch value
and the effects of the detection block. -/
def detectBranch (env : Env) (cfg : Config) (branch : Option String) :
    Option String × List Effect :=
  if strTruthy branch then (branch, [])
  else
    match env.exec "git rev-parse --abbrev-ref HEAD" cfg.workingDir with
    | .ok r =>
      (some (jsTrim r.stdout),
        [.exec "git rev-parse --abbrev-ref HEAD" cfg.workingDir] ++ logToFile env cfg.logFile)
    | .error _ =>
      (branch,
        [.exec "git rev-parse --abbrev-ref HEAD" cfg.workingDir] ++ logToFile env cfg.logFile)

/-- The push command line (index.ts line 165): the branch when truthy, the
literal ` HEAD` otherwise. -/
def pushCmd (currentBranch : Option String) (remote : String) : String :=
  "git push " ++ remote ++
    (if strTruthy currentBranch then " " ++ currentBranch.getD "" else " HEAD")

/-- The value produced by `gitPush`'s catch block (index.ts lines 176-185):
when the failure text (truthy `message`, or truthy `stderr`) contains
"nothing to commit", a success-shaped "No changes to commit."; otherwise
the thrown failure message. -/
def pushCatch (e : ExecError) : Except String String :=
  if e.message ≠ "" ∧ (strIncludes e.message "nothing to commit" = true ∨
      (e.stderr ≠ "" ∧ strIncludes e.stderr "nothing to commit" = true)) then
    .ok "No changes to commit."
  else
    .error ("Failed to push to Git repository: " ++ e.message ++ stderrSuffix e)

/-- The success message returned by `gitPush` (index.ts line 172). -/
def pushOkMsg (currentBranch : Option String) (remote : String)
    (commitMessage : String) (stdout : String) : String :=
  "Successfully pushed changes to remote '" ++ remote ++ "'" ++
    (if strTruthy currentBranch then
      " branch '" ++ currentBranch.getD "" ++ "'" else "") ++
    " with message: \"" ++ commitMessage ++ "\". Output:\n" ++
    (if stdout = "" then "No output" else stdout)

/-- `gitPush(commitMessage, branch?, remote)`: stage all, commit, detect the
current branch when none is given, push; any rejected step lands in the
shared catch block `pushCatch`. -/
def gitPush (env : Env) (cfg : Config) (commitMessage : String)
    (branch : Option String) (remote : String) : Except String String × List Effect :=
  let wd := cfg.workingDir
  let L := logToFile env cfg.logFile
  match env.exec "git add ." wd with
  | .error e => (pushCatch e, L ++ [.exec "git add ." wd] ++ L ++ L)
  | .ok _ =>
    match env.exec (commitCmd commitMessage) wd with
    | .error e =>
      (pushCatch e,
        L ++ [.exec "git add ." wd] ++ L ++ [.exec (commitCmd commitMessage) wd] ++ L ++ L)
    | .ok _ =>
      let det := detectBranch env cfg branch
      let cmd := pushCmd det.1 remote
      let pre := L ++ [.exec "git add ." wd] ++ L ++ [.exec (commitCmd commitMessage) wd]
        ++ det.2 ++ L ++ [.exec cmd wd]
      match env.exec cmd wd with
      | .error e => (pushCatch e, pre ++ L ++ L)
      | .ok r =>
        let stderrLog :=
          if r.stderr ≠ "" ∧ ¬ (strIncludes r.stderr "To github.com" = true) then L else []
        (.ok (pushOkMsg det.1 remote commitMessage r.stdout),
          pre ++ stderrLog ++ L ++ L)

/-! ## zod input validation (index.ts lines 57-89, 375-377)

Request arguments are a JSON object (or absent): a list of key/value pairs,
values carrying their JSON type. Each schema checks its declared fields in
declaration order and collects every violation, as zod's `.parse` does;
unknown keys are stripped silently. -/

/-- A JSON value, by type, as zod sees an argument. -/
inductive JValue where
  | str (s : String)
  | num
  | boolean
  | null
  | obj
  | arr
  deriving DecidableEq, Repr

/-- zod's name for a received value's type. -/
def jTypeName : JValue → String
  | .str _ => "string"
  | .num => "number"
  | .boolean => "boolean"
  | .null => "null"
  | .obj => "object"
  | .arr => "array"

/-- `request.params.arguments`: absent (`undefined`) or an object. -/
def Args : Type := Option (List (String × JValue))

/-- One zod issue: the offending path and zod's message. -/
structure ZIssue where
  path : List String
  message : String
  deriving DecidableEq, Repr

/-- First binding of a key in an object. -/
def lookupArg (fields : List (String × JValue)) (k : String) : Option JValue :=
  (fields.find? (fun p => p.1 = k)).map (·.2)

/-- `z.string()` on a required field. -/
def reqString (fields : List (String × JValue)) (k : String) : Except ZIssue String :=
  match lookupArg fields k with
  | none => .error ⟨[k], "Required"⟩
  | some (.str s) => .ok s
  | some v => .error ⟨[k], "Expected string, received " ++ jTypeName v⟩

/-- `z.string().optional()`. -/
def optString (fields : List (String × JValue)) (k : String) :
    Except ZIssue (Option String) :=
  match lookupArg fields k with
  | none => .ok none
  | some (.str s) => .ok (some s)
  | some v => .error ⟨[k], "Expected string, received " ++ jTypeName v⟩

/-- `z.string().optional().default(d)`. -/
def defString (fields : List (String × JValue)) (k d : String) : Except ZIssue String :=
  match lookupArg fields k with
  | none => .ok d
  | some (.str s) => .ok s
  | some v => .error ⟨[k], "Expected string, received " ++ jTypeName v⟩

/-- The issue list of one field check. -/
def issueOf {α : Type} : Except ZIssue α → List ZIssue
  | .error i => [i]
  | .ok _ => []

/-- `LoadConfigInputSchema.parse(arguments)` (index.ts lines 57-59, 305). -/
def parseLoadConfig (args : Args) : Except (List ZIssue) String :=
  match args with
  | none => .error [⟨[], "Required"⟩]
  | some fields =>
    match reqString fields "working_dir" with
    | .ok s => .ok s
    | .error i => .error [i]

/-- `GetInitInputSchema.parse(arguments)` (index.ts lines 69-72, 345). -/
def parseGetInit (args : Args) : Except (List ZIssue) (String × Option String) :=
  match args with
  | none => .error [⟨[], "Required"⟩]
  | some fields =>
    let u := reqString fields "remoteUrl"
    let b := optString fields "defaultBranch"
    match u, b with
    | .ok uv, .ok bv => .ok (uv, bv)
    | _, _ => .error (issueOf u ++ issueOf b)

/-- `GetPullInputSchema.parse(arguments || \x7b\x7d)` (index.ts lines 77-80,
353): an absent arguments object is replaced by the empty object first. -/
def parseGetPull (args : Args) : Except (List ZIssue) (Option String × String) :=
  let fields := args.getD []
  let b := optString fields "branch"
  let r := defString fields "remote" "origin"
  match b, r with
  | .ok bv, .ok rv => .ok (bv, rv)
  | _, _ => .error (issueOf b ++ issueOf r)

/-- `GetPushInputSchema.parse(arguments)` (index.ts lines 85-89, 361). -/
def parseGetPush (args : Args) :
    Except (List ZIssue) (String × Option String × String) :=
  match args with
  | none => .error [⟨[], "Required"⟩]
  | some fields =>
    let c := reqString fields "commitMessage"
    let b := optString fields "branch"
    let r := defString fields "remote" "origin"
    match c, b, r with
    | .ok cv, .ok bv, .ok rv => .ok (cv, bv, rv)
    | _, _, _ => .error (issueOf c ++ issueOf b ++ issueOf r)

/-- The formatted message the dispatcher's catch block throws for a
`ZodError` (index.ts lines 375-377). -/
def valFailMsg (name : String) (issues : List ZIssue) : String :=
  "Input validation failed for tool '" ++ name ++ "':\n" ++
    joinSep "\n"
      (issues.map fun i => joinSep "." i.path ++ ": " ++ i.message)

/-- The validation issues the dispatcher's parse step raises for a given
tool name and arguments: `none` when parsing succeeds (or the name needs no
parse that can fail). -/
def validationIssues (name : String) (args : Args) : Option (List ZIssue) :=
  match name with
  | "load_config" =>
    match parseLoadConfig args with
    | .error is => some is
    | .ok _ => none
  | "get_init" =>
    match parseGetInit args with
    | .error is => some is
    | .ok _ => none
  | "get_pull" =>
    match parseGetPull args with
    | .error is => some is
    | .ok _ => none
  | "get_push" =>
    match parseGetPush args with
    | .error is => some is
    | .ok _ => none
  | _ => none

/-! ## Dispatcher (index.ts lines 301-381) -/

/-- One tool-invocation request: the tool name and its arguments. -/
structure Request where
  name : String
  args : Args

/-- The success text of the `load_config` case (index.ts line 329). -/
def loadConfigOkMsg (cfg : Config) : String :=
  "Configuration updated: Working Directory set to '" ++ cfg.workingDir ++
    "'. Log file is now at '" ++ cfg.logFile ++ "'."

/-- The text of the `get_config` case (index.ts line 339). -/
def getConfigMsg (cfg : Config) : String :=
  "Current Configuration:\n- Working Directory: " ++ cfg.workingDir ++
    "\n- Log File: " ++ cfg.logFile

/-- The `CallToolRequestSchema` handler: validates, routes to the handler,
and (in its catch block) logs and maps a `ZodError` to the formatted
validation failure, re-throwing every other error. Returns the result, the
configuration after the request, and the effect trace. In the
`load_config` case `WORKING_DIR` and `LOG_FILE` are reassigned (lines
308-311) before the existence check and `mkdirSync` (lines 314-321), so a
directory-creation failure leaves the new values in place. -/
def dispatch (env : Env) (cfg : Config) (req : Request) :
    Except String String × Config × List Effect :=
  match req.name with
  | "load_config" =>
    match parseLoadConfig req.args with
    | .error issues =>
      (.error (valFailMsg "load_config" issues), cfg, logToFile env cfg.logFile)
    | .ok workingDir =>
      let newWd := pathResolve env.cwd0 workingDir
      let newCfg : Config := { workingDir := newWd, logFile := pathJoin newWd logName }
      let L := logToFile env newCfg.logFile
      if env.existsSync newWd then
        (.ok (loadConfigOkMsg newCfg), newCfg, [.fsExists newWd] ++ L)
      else
        match env.mkdirErr newWd with
        | none =>
          (.ok (loadConfigOkMsg newCfg), newCfg,
            [.fsExists newWd, .fsMkdir newWd] ++ L ++ L)
        | some m =>
          (.error ("Failed to create working directory " ++ newWd ++ ": " ++ m),
            newCfg, [.fsExists newWd, .fsMkdir newWd] ++ L ++ L)
  | "get_config" =>
    (.ok (getConfigMsg cfg), cfg, [])
  | "get_init" =>
    match parseGetInit req.args with
    | .error issues =>
      (.error (valFailMsg "get_init" issues), cfg, logToFile env cfg.logFile)
    | .ok (remoteUrl, defaultBranch) =>
      match gitInit env cfg remoteUrl defaultBranch with
      | (.ok t, effs) => (.ok t, cfg, effs)
      | (.error m, effs) => (.error m, cfg, effs ++ logToFile env cfg.logFile)
  | "get_pull" =>
    match parseGetPull req.args with
    | .error issues =>
      (.error (valFailMsg "get_pull" issues), cfg, logToFile env cfg.logFile)
    | .ok (branch, remote) =>
      match gitPull env cfg branch remote with
      | (.ok t, effs) => (.ok t, cfg, effs)
      | (.error m, effs) => (.error m, cfg, effs ++ logToFile env cfg.logFile)
  | "get_push" =>
    match parseGetPush req.args with
    | .error issues =>
      (.error (valFailMsg "get_push" issues), cfg, logToFile env cfg.logFile)
    | .ok (commitMessage, branch, remote) =>
      match gitPush env cfg commitMessage branch remote with
      | (.ok t, effs) => (.ok t, cfg, effs)
      | (.error m, effs) => (.error m, cfg, effs ++ logToFile env cfg.logFile)
  | other =>
    (.error ("Unknown tool: " ++ other), cfg,
      logToFile env cfg.logFile ++ logToFile env cfg.logFile)

/-- The configuration after a sequence of requests, processed one at a time
to completion, starting from `cfg`. -/
def runSeq (env : Env) (cfg : Config) : List Request → Config
  | [] => cfg
  | r :: rs => runSeq env (dispatch env cfg r).2.1 rs

/-! ## Helper lemmas -/

lemma dispatch_preserves_config (env : Env) (cfg : Config) (req : Request)
    (h : req.name ≠ "load_config") : (dispatch env cfg req).2.1 = cfg := by
  rcases req with ⟨name, args⟩
  simp only at h
  unfold dispatch
  split
  · simp_all
  · rfl
  · split
    · rfl
    · split <;> rfl
  · split
    · rfl
    · split <;> rfl
  · split
    · rfl
    · split <;> rfl
  · rfl

lemma dispatch_load_config_sets (env : Env) (cfg : Config) (args : Args) (p : String)
    (h : parseLoadConfig args = .ok p) :
    (dispatch env cfg ⟨"load_config", args⟩).2.1 =
      ⟨pathResolve env.cwd0 p, pathJoin (pathResolve env.cwd0 p) logName⟩ := by
  unfold dispatch
  simp only [h]
  split
  · rfl
  · split <;> rfl

lemma execsOf_append (a b : List Effect) : execsOf (a ++ b) = execsOf a ++ execsOf b :=
  List.filterMap_append a b _

lemma execsOf_nil : execsOf [] = [] := rfl

lemma execsOf_cons_exec (c w : String) (t : List Effect) :
    execsOf (Effect.exec c w :: t) = (c, w) :: execsOf t := rfl

lemma execsOf_logToFile (env : Env) (lf : String) : execsOf (logToFile env lf) = [] := by
  unfold logToFile execsOf
  simp only []
  by_cases h : env.existsSync (pathDirname lf) = true
  · simp [h]
  · simp only [h]
    cases env.mkdirErr (pathDirname lf) <;> simp

lemma joinSep_mem_decomp (sep x : String) (l : List String) (hx : x ∈ l) :
    ∃ pre post, joinSep sep l = pre ++ x ++ post := by
  induction l with
  | nil => cases hx
  | cons a t ih =>
    rcases List.mem_cons.mp hx with h | h
    · subst h
      cases t with
      | nil => exact ⟨"", "", by simp [joinSep, String.append_empty, String.empty_append]⟩
      | cons b t2 =>
        exact ⟨"", sep ++ joinSep sep (b :: t2), by
          simp [joinSep, String.empty_append, String.append_assoc]⟩
    · rcases ih h with ⟨pre, post, hp⟩
      cases t with
      | nil => cases h
      | cons b t2 =>
        refine ⟨a ++ sep ++ pre, post, ?_⟩
        show a ++ sep ++ joinSep sep (b :: t2) = a ++ sep ++ pre ++ x ++ post
        rw [hp]
        simp only [String.append_assoc]

/-- The invariant of claim C3: the log file path is the working directory
joined with the fixed log file name. -/
def cfgInv (c : Config) : Prop := c.logFile = pathJoin c.workingDir logName

/-! ## Claim theorems -/

/-- C10: the quote-handling transformation `replace(/"/g, '\"')` applied to
the commit message before building the commit command is the identity
function (the JavaScript replacement string `'\"'` is just `"`), so the
command handed to the shell is exactly
`git commit -m "` ++ commitMessage ++ `"`, embedded double quotes left
unescaped. -/
theorem commit_command_quote_identity (msg : String) :
    jsEscapeQuotes msg = msg ∧
      commitCmd msg = "git commit -m \"" ++ msg ++ "\"" := by
  have h : jsEscapeQuotes msg = msg := by
    unfold jsEscapeQuotes
    have hl : ∀ l : List Char,
        (l.flatMap fun c => if c = '"' then ['"'] else [c]) = l := by
      intro l
      induction l with
      | nil => rfl
      | cons c t ih =>
        by_cases hc : c = '"'
        · subst hc
          simpa using ih
        · simpa [hc] using ih
    rw [hl]
  exact ⟨h, by unfold commitCmd; rw [h]⟩

/-- C3: after process start and after every (possibly failing) operation,
the global configuration satisfies `logFilePath = workingDirectory joined
with "github-mcp-server.log"`; `load_config`, the only operation that
changes the working directory, recomputes the log path in the same step,
so the invariant holds after every request sequence. -/
theorem log_path_invariant (env : Env) (reqs : List Request) :
    cfgInv (runSeq env (initialConfig env) reqs) := by
  have step : ∀ cfg req, cfgInv cfg → cfgInv (dispatch env cfg req).2.1 := by
    intro cfg req h
    by_cases hn : req.name = "load_config"
    · rcases req with ⟨name, args⟩
      simp only at hn
      subst hn
      cases hp : parseLoadConfig args with
      | error issues =>
        have : (dispatch env cfg ⟨"load_config", args⟩).2.1 = cfg := by
          unfold dispatch
          simp only [hp]
        rw [this]; exact h
      | ok p =>
        rw [dispatch_load_config_sets env cfg args p hp]
        rfl
    · rw [dispatch_preserves_config env cfg req hn]
      exact h
  have go : ∀ (rs : List Request) (cfg : Config), cfgInv cfg →
      cfgInv (runSeq env cfg rs) := by
    intro rs
    induction rs with
    | nil => intro cfg h; exact h
    | cons r t ih =>
      intro cfg h
      exact ih _ (step cfg r h)
  exact go reqs (initialConfig env) rfl

/-! ### C1 -/

/-- An environment in which every directory is absent and every
`mkdirSync` fails. -/
def envC1 : Env :=
  { cwd0 := "/base"
    exec := fun _ _ => .ok ⟨"", ""⟩
    existsSync := fun _ => false
    mkdirErr := fun _ => some "EACCES: permission denied" }

/-- A `load_config` request naming a directory that cannot be created. -/
def reqC1 : Request := ⟨"load_config", some [("working_dir", .str "/data/repo")]⟩

/-- C1 counterexample: a `load_config` request whose directory creation
fails does fail, but the global configuration is NOT left unchanged: the
working directory after the request is the new resolved path, not the one
from before the request, so the config replacement is not atomic-on-success. -/
theorem load_config_mkdir_failure_changes_config :
    (dispatch envC1 (initialConfig envC1) reqC1).1 =
      .error "Failed to create working directory /data/repo: EACCES: permission denied"
    ∧ (dispatch envC1 (initialConfig envC1) reqC1).2.1.workingDir = "/data/repo"
    ∧ (initialConfig envC1).workingDir = "/base"
    ∧ (dispatch envC1 (initialConfig envC1) reqC1).2.1 ≠ initialConfig envC1 := by
  refine ⟨rfl, rfl, rfl, ?_⟩
  decide

/-- C1 amended: if directory creation for the resolved path fails, the
`load_config` operation fails, but the global configuration has already
been replaced: `WORKING_DIR` and `LOG_FILE` are reassigned (index.ts lines
308-311) before the existence check and `mkdirSync` (lines 314-321), so
after the failed request the configuration holds the new resolved path and
its recomputed log path. -/
theorem load_config_mkdir_failure_keeps_new_config (env : Env) (cfg : Config)
    (args : Args) (p m : String)
    (hp : parseLoadConfig args = .ok p)
    (hex : env.existsSync (pathResolve env.cwd0 p) = false)
    (hmk : env.mkdirErr (pathResolve env.cwd0 p) = some m) :
    (dispatch env cfg ⟨"load_config", args⟩).1 =
      .error ("Failed to create working directory " ++ pathResolve env.cwd0 p ++ ": " ++ m)
    ∧ (dispatch env cfg ⟨"load_config", args⟩).2.1 =
      ⟨pathResolve env.cwd0 p, pathJoin (pathResolve env.cwd0 p) logName⟩ := by
  unfold dispatch
  simp only [hp, hex, hmk, Bool.false_eq_true, if_false]
  refine ⟨?_, ?_⟩ <;> trivial

/-- C1 witness: the amended statement at the concrete failing environment. -/
theorem load_config_mkdir_failure_keeps_new_config_witness :
    (dispatch envC1 (initialConfig envC1) reqC1).1 =
      .error ("Failed to create working directory " ++ pathResolve envC1.cwd0 "/data/repo"
        ++ ": " ++ "EACCES: permission denied")
    ∧ (dispatch envC1 (initialConfig envC1) reqC1).2.1 =
      ⟨pathResolve envC1.cwd0 "/data/repo",
        pathJoin (pathResolve envC1.cwd0 "/data/repo") logName⟩ :=
  load_config_mkdir_failure_keeps_new_config envC1 (initialConfig envC1)
    (some [("working_dir", .str "/data/repo")]) "/data/repo"
    "EACCES: permission denied" rfl rfl rfl

/-! ### C2 -/

/-- The condition `gitPush`'s catch block tests (index.ts line 179): the
error's message is truthy and the substring "nothing to commit" occurs in
the message, or the stderr is truthy and it occurs in the stderr. -/
def nocText (e : ExecError) : Prop :=
  e.message ≠ "" ∧ (strIncludes e.message "nothing to commit" = true ∨
    (e.stderr ≠ "" ∧ strIncludes e.stderr "nothing to commit" = true))

lemma pushCatch_of_nocText (e : ExecError) (h : nocText e) :
    pushCatch e = .ok "No changes to commit." := by
  unfold pushCatch
  exact if_pos h

lemma pushCatch_of_not_nocText (e : ExecError) (h : ¬ nocText e) :
    pushCatch e =
      .error ("Failed to push to Git repository: " ++ e.message ++ stderrSuffix e) := by
  unfold pushCatch
  exact if_neg h

/-- An environment in which `git add .` and the commit succeed, the current
branch is detected as `main`, and the push itself fails with a failure text
containing "nothing to commit". -/
def envC2 : Env :=
  { cwd0 := "/repo"
    exec := fun c _ =>
      if c = "git push origin main" then
        .error ⟨"Command failed: git push origin main", "fatal: nothing to commit in index"⟩
      else if c = "git rev-parse --abbrev-ref HEAD" then .ok ⟨"main\n", ""⟩
      else .ok ⟨"", ""⟩
    existsSync := fun _ => true
    mkdirErr := fun _ => none }

/-- C2 counterexample: the short-circuit does NOT apply only when the
commit step fails: here the commit step succeeds and the push step fails
with "nothing to commit" in its stderr, yet `gitPush` still returns the
success result "No changes to commit.". -/
theorem push_noc_shortcircuit_not_only_commit :
    (gitPush envC2 (initialConfig envC2) "m" none "origin").1 =
      .ok "No changes to commit."
    ∧ envC2.exec (commitCmd "m") (initialConfig envC2).workingDir = .ok ⟨"", ""⟩
    ∧ envC2.exec "git push origin main" (initialConfig envC2).workingDir =
        .error ⟨"Command failed: git push origin main", "fatal: nothing to commit in index"⟩ :=
  ⟨rfl, rfl, rfl⟩

/-- C2 amended: if the commit step fails with a failure text containing
"nothing to commit" (in a truthy message, or in a truthy stderr), the
operation returns the success result whose text is exactly
"No changes to commit." and does not return a failure; but the
short-circuit is implemented in a catch block shared by all steps, so the
staging or push step failing with that text triggers it just the same —
it is not limited to the commit step. -/
theorem push_noc_shortcircuit (env : Env) (cfg : Config) (msg : String)
    (branch : Option String) (remote : String) (e : ExecError)
    (hstep :
      env.exec "git add ." cfg.workingDir = .error e
      ∨ ((∃ r, env.exec "git add ." cfg.workingDir = .ok r)
          ∧ env.exec (commitCmd msg) cfg.workingDir = .error e)
      ∨ ((∃ r, env.exec "git add ." cfg.workingDir = .ok r)
          ∧ (∃ r, env.exec (commitCmd msg) cfg.workingDir = .ok r)
          ∧ env.exec (pushCmd (detectBranch env cfg branch).1 remote) cfg.workingDir
              = .error e))
    (hnoc : nocText e) :
    (gitPush env cfg msg branch remote).1 = .ok "No changes to commit." := by
  unfold gitPush
  rcases hstep with h | ⟨⟨r1, h1⟩, h⟩ | ⟨⟨r1, h1⟩, ⟨r2, h2⟩, h⟩
  · simp only [h]
    exact pushCatch_of_nocText e hnoc
  · simp only [h1, h]
    exact pushCatch_of_nocText e hnoc
  · simp only [h1, h2, h]
    exact pushCatch_of_nocText e hnoc

/-- C2 witness: the amended statement at the concrete environment in which
the commit step itself fails with "nothing to commit". -/
theorem push_noc_shortcircuit_witness :
    (gitPush envC2 (initialConfig envC2) "m" none "origin").1 =
      .ok "No changes to commit." :=
  push_noc_shortcircuit envC2 (initialConfig envC2) "m" none "origin"
    ⟨"Command failed: git push origin main", "fatal: nothing to commit in index"⟩
    (Or.inr (Or.inr ⟨⟨⟨"", ""⟩, rfl⟩, ⟨⟨"", ""⟩, rfl⟩, rfl⟩))
    ⟨by decide, Or.inr ⟨by decide, by decide⟩⟩

/-! ### C4 -/

/-- A benign environment: every command succeeds, every directory exists. -/
def envC4 : Env :=
  { cwd0 := "/srv"
    exec := fun _ _ => .ok ⟨"", ""⟩
    existsSync := fun _ => true
    mkdirErr := fun _ => none }

/-- A `get_init` request with an empty arguments object: `remoteUrl` is
missing, so validation fails. -/
def reqC4 : Request := ⟨"get_init", some []⟩

/-- C4 counterexample: a validation failure does produce the enumerating
failure message and invokes no subprocess, but the filesystem IS touched in
producing it: the dispatcher's catch block appends the error to the log
file (index.ts line 373) before mapping the ZodError to the failure. -/
theorem validation_failure_touches_filesystem :
    (dispatch envC4 (initialConfig envC4) reqC4).1 =
      .error "Input validation failed for tool 'get_init':\nremoteUrl: Required"
    ∧ Effect.fsAppend (initialConfig envC4).logFile ∈
        (dispatch envC4 (initialConfig envC4) reqC4).2.2 :=
  ⟨rfl, by decide⟩

/-- C4 amended: for every request whose arguments violate the operation's
declared shape, the result is a failure whose message enumerates every
violated field with its reason (zod collects all issues, and each formatted
issue occurs in the message), and no subprocess is invoked; however the
filesystem is touched in producing the failure — the effect trace is
exactly the catch block's log write to the current log file. -/
theorem validation_failure_enumerates_and_runs_nothing (env : Env) (cfg : Config)
    (name : String) (args : Args) (issues : List ZIssue)
    (hname : name = "load_config" ∨ name = "get_init" ∨ name = "get_pull"
      ∨ name = "get_push")
    (hval : validationIssues name args = some issues) :
    (dispatch env cfg ⟨name, args⟩).1 = .error (valFailMsg name issues)
    ∧ execsOf (dispatch env cfg ⟨name, args⟩).2.2 = []
    ∧ (dispatch env cfg ⟨name, args⟩).2.2 = logToFile env cfg.logFile
    ∧ ∀ i ∈ issues, ∃ pre post,
        valFailMsg name issues =
          pre ++ (joinSep "." i.path ++ ": " ++ i.message) ++ post := by
  have hmem : ∀ i ∈ issues, ∃ pre post,
      valFailMsg name issues =
        pre ++ (joinSep "." i.path ++ ": " ++ i.message) ++ post := by
    intro i hi
    have hx : (joinSep "." i.path ++ ": " ++ i.message) ∈
        issues.map (fun j => joinSep "." j.path ++ ": " ++ j.message) :=
      List.mem_map_of_mem _ hi
    rcases joinSep_mem_decomp "\n" _ _ hx with ⟨pre, post, hp⟩
    exact ⟨"Input validation failed for tool '" ++ name ++ "':\n" ++ pre, post, by
      unfold valFailMsg
      rw [hp]
      simp only [String.append_assoc]⟩
  rcases hname with h | h | h | h <;> subst h
  · cases hp : parseLoadConfig args with
    | error is =>
      have his : is = issues := by
        have hv := hval
        unfold validationIssues at hv
        rw [hp] at hv
        exact Option.some.inj hv
      subst his
      have hd : dispatch env cfg ⟨"load_config", args⟩ =
          (.error (valFailMsg "load_config" is), cfg, logToFile env cfg.logFile) := by
        unfold dispatch
        simp only [hp]
      exact ⟨by rw [hd], by rw [hd]; exact execsOf_logToFile env cfg.logFile,
        by rw [hd], hmem⟩
    | ok p =>
      exact absurd hval (by unfold validationIssues; rw [hp]; simp)
  · cases hp : parseGetInit args with
    | error is =>
      have his : is = issues := by
        have hv := hval
        unfold validationIssues at hv
        rw [hp] at hv
        exact Option.some.inj hv
      subst his
      have hd : dispatch env cfg ⟨"get_init", args⟩ =
          (.error (valFailMsg "get_init" is), cfg, logToFile env cfg.logFile) := by
        unfold dispatch
        simp only [hp]
      exact ⟨by rw [hd], by rw [hd]; exact execsOf_logToFile env cfg.logFile,
        by rw [hd], hmem⟩
    | ok p =>
      exact absurd hval (by unfold validationIssues; rw [hp]; simp)
  · cases hp : parseGetPull args with
    | error is =>
      have his : is = issues := by
        have hv := hval
        unfold validationIssues at hv
        rw [hp] at hv
        exact Option.some.inj hv
      subst his
      have hd : dispatch env cfg ⟨"get_pull", args⟩ =
          (.error (valFailMsg "get_pull" is), cfg, logToFile env cfg.logFile) := by
        unfold dispatch
        simp only [hp]
      exact ⟨by rw [hd], by rw [hd]; exact execsOf_logToFile env cfg.logFile,
        by rw [hd], hmem⟩
    | ok p =>
      exact absurd hval (by unfold validationIssues; rw [hp]; simp)
  · cases hp : parseGetPush args with
    | error is =>
      have his : is = issues := by
        have hv := hval
        unfold validationIssues at hv
        rw [hp] at hv
        exact Option.some.inj hv
      subst his
      have hd : dispatch env cfg ⟨"get_push", args⟩ =
          (.error (valFailMsg "get_push" is), cfg, logToFile env cfg.logFile) := by
        unfold dispatch
        simp only [hp]
      exact ⟨by rw [hd], by rw [hd]; exact execsOf_logToFile env cfg.logFile,
        by rw [hd], hmem⟩
    | ok p =>
      exact absurd hval (by unfold validationIssues; rw [hp]; simp)

/-- C4 witness: a `get_push` request with a missing `commitMessage` and a
number-typed `branch` produces the failure enumerating both violated
fields, with the trace limited to the log write. -/
theorem validation_failure_enumerates_witness :
    (dispatch envC4 (initialConfig envC4) ⟨"get_push", some [("branch", .num)]⟩).1 =
      .error (valFailMsg "get_push"
        [⟨["commitMessage"], "Required"⟩, ⟨["branch"], "Expected string, received number"⟩])
    ∧ execsOf (dispatch envC4 (initialConfig envC4)
        ⟨"get_push", some [("branch", .num)]⟩).2.2 = []
    ∧ (dispatch envC4 (initialConfig envC4) ⟨"get_push", some [("branch", .num)]⟩).2.2 =
        logToFile envC4 (initialConfig envC4).logFile
    ∧ ∀ i ∈ ([⟨["commitMessage"], "Required"⟩,
        ⟨["branch"], "Expected string, received number"⟩] : List ZIssue), ∃ pre post,
        valFailMsg "get_push"
          [⟨["commitMessage"], "Required"⟩, ⟨["branch"], "Expected string, received number"⟩] =
          pre ++ (joinSep "." i.path ++ ": " ++ i.message) ++ post :=
  validation_failure_enumerates_and_runs_nothing envC4 (initialConfig envC4)
    "get_push" (some [("branch", .num)])
    [⟨["commitMessage"], "Required"⟩, ⟨["branch"], "Expected string, received number"⟩]
    (Or.inr (Or.inr (Or.inr rfl))) rfl

/-! ### C5 -/

/-- Whether an `Except` value is a success. -/
def isOkE {ε α : Type} : Except ε α → Bool
  | .ok _ => true
  | .error _ => false

/-- C5: `get_pull` fails if and only if the underlying pull command's
execution fails (non-zero exit): stderr content — whether it holds the
benign substrings "Updating" / "Fast-forward" or anything else — never
turns a zero-exit run into a failure (it only selects whether the stderr is
logged), and on failure the message includes the captured stderr. -/
theorem pull_fails_iff_exec_fails (env : Env) (cfg : Config)
    (branch : Option String) (remote : String) :
    (isOkE (gitPull env cfg branch remote).1 =
      isOkE (env.exec (pullCmd branch remote) cfg.workingDir))
    ∧ (∀ r, env.exec (pullCmd branch remote) cfg.workingDir = .ok r →
        (gitPull env cfg branch remote).1 = .ok (pullOkMsg branch remote r.stdout))
    ∧ (∀ e, env.exec (pullCmd branch remote) cfg.workingDir = .error e →
        ∃ pre post, (gitPull env cfg branch remote).1 = .error (pre ++ e.stderr ++ post)) := by
  refine ⟨?_, ?_, ?_⟩
  · cases h : env.exec (pullCmd branch remote) cfg.workingDir with
    | ok r => unfold gitPull; simp only [h]; rfl
    | error e => unfold gitPull; simp only [h]; rfl
  · intro r h
    unfold gitPull
    simp only [h]
  · intro e h
    have hd : (gitPull env cfg branch remote).1 = .error (pullFailMsg e) := by
      unfold gitPull
      simp only [h]
    by_cases hs : e.stderr = ""
    · refine ⟨pullFailMsg e, "", ?_⟩
      rw [hd, hs, String.append_empty, String.append_empty]
    · refine ⟨"Failed to pull from Git repository: " ++ e.message ++ "\nstderr: ", "", ?_⟩
      rw [hd, String.append_empty]
      unfold pullFailMsg stderrSuffix
      rw [if_neg hs]
      simp only [String.append_assoc]

/-- An environment in which the pull command fails with a captured stderr. -/
def envC5 : Env :=
  { cwd0 := "/repo"
    exec := fun _ _ =>
      .error ⟨"Command failed: git pull origin", "fatal: unable to access remote"⟩
    existsSync := fun _ => true
    mkdirErr := fun _ => none }

/-- C5 witness: at the concrete failing environment, the failure message
contains the captured stderr. -/
theorem pull_fails_iff_exec_fails_witness :
    ∃ pre post, (gitPull envC5 (initialConfig envC5) none "origin").1 =
      .error (pre ++ "fatal: unable to access remote" ++ post) :=
  (pull_fails_iff_exec_fails envC5 (initialConfig envC5) none "origin").2.2
    ⟨"Command failed: git pull origin", "fatal: unable to access remote"⟩ rfl

/-! ### C6 -/

/-- An environment in which branch detection succeeds with output "HEAD"
(a detached-HEAD repository) and every other command succeeds. -/
def envC6 : Env :=
  { cwd0 := "/w"
    exec := fun c _ =>
      if c = "git rev-parse --abbrev-ref HEAD" then .ok ⟨"HEAD\n", ""⟩
      else .ok ⟨"", ""⟩
    existsSync := fun _ => true
    mkdirErr := fun _ => none }

/-- C6 counterexample: branch detection succeeds (the query returns
"HEAD\n", as `git rev-parse --abbrev-ref HEAD` does on a detached HEAD),
yet the push command contains the literal token "HEAD" — so "never the
literal token HEAD when detection succeeds" fails. -/
theorem push_detected_branch_can_be_head :
    envC6.exec "git rev-parse --abbrev-ref HEAD" (initialConfig envC6).workingDir =
      .ok ⟨"HEAD\n", ""⟩
    ∧ (detectBranch envC6 (initialConfig envC6) none).1 = some "HEAD"
    ∧ Effect.exec "git push origin HEAD" (initialConfig envC6).workingDir ∈
        (gitPush envC6 (initialConfig envC6) "m" none "origin").2 :=
  ⟨rfl, rfl, by decide⟩

/-- C6 amended: for a `get_push` with `branch` omitted, once staging and
commit succeed: when the detection query succeeds the push command targets
the trimmed detected output (so it is the literal "HEAD" exactly when the
output itself trims to "HEAD", e.g. on a detached HEAD; a nonempty trimmed
name is spliced into `git push <remote> <name>`); when the detection query
fails, the operation does not fail at that step — the push command is still
executed — and it targets the symbolic "HEAD". -/
theorem push_branch_detection (env : Env) (cfg : Config) (msg remote : String)
    (r1 r2 : ExecResult)
    (h1 : env.exec "git add ." cfg.workingDir = .ok r1)
    (h2 : env.exec (commitCmd msg) cfg.workingDir = .ok r2) :
    (∀ r, env.exec "git rev-parse --abbrev-ref HEAD" cfg.workingDir = .ok r →
      (detectBranch env cfg none).1 = some (jsTrim r.stdout)
      ∧ (jsTrim r.stdout ≠ "" →
          pushCmd (detectBranch env cfg none).1 remote =
            "git push " ++ remote ++ " " ++ jsTrim r.stdout)
      ∧ Effect.exec (pushCmd (detectBranch env cfg none).1 remote) cfg.workingDir ∈
          (gitPush env cfg msg none remote).2)
    ∧ (∀ e, env.exec "git rev-parse --abbrev-ref HEAD" cfg.workingDir = .error e →
        pushCmd (detectBranch env cfg none).1 remote = "git push " ++ remote ++ " HEAD"
        ∧ Effect.exec ("git push " ++ remote ++ " HEAD") cfg.workingDir ∈
            (gitPush env cfg msg none remote).2) := by
  have hmem : ∀ b : Option String,
      Effect.exec (pushCmd (detectBranch env cfg none).1 remote) cfg.workingDir ∈
        (gitPush env cfg msg none remote).2 := by
    intro _
    unfold gitPush
    simp only [h1, h2]
    cases hp : env.exec (pushCmd (detectBranch env cfg none).1 remote) cfg.workingDir with
    | error e => simp
    | ok r => simp
  refine ⟨?_, ?_⟩
  · intro r hr
    have hdet : (detectBranch env cfg none).1 = some (jsTrim r.stdout) := by
      unfold detectBranch
      simp only [strTruthy, Bool.false_eq_true, if_false, hr]
    refine ⟨hdet, ?_, hmem none⟩
    intro hne
    have ht : strTruthy (some (jsTrim r.stdout)) = true := by
      simp [strTruthy, hne]
    unfold pushCmd
    rw [hdet]
    simp [ht, String.append_assoc]
  · intro e he
    have hdet : (detectBranch env cfg none).1 = none := by
      unfold detectBranch
      simp only [strTruthy, Bool.false_eq_true, if_false, he]
    have hcmd : pushCmd (detectBranch env cfg none).1 remote =
        "git push " ++ remote ++ " HEAD" := by
      unfold pushCmd
      rw [hdet]
      rfl
    refine ⟨hcmd, ?_⟩
    have := hmem none
    rwa [hcmd] at this

/-- C6 witness: the amended statement at the concrete detached-HEAD
environment. -/
theorem push_branch_detection_witness :
    (detectBranch envC6 (initialConfig envC6) none).1 =
      some (jsTrim (ExecResult.mk "HEAD\n" "").stdout)
    ∧ (jsTrim (ExecResult.mk "HEAD\n" "").stdout ≠ "" →
        pushCmd (detectBranch envC6 (initialConfig envC6) none).1 "origin" =
          "git push " ++ "origin" ++ " " ++ jsTrim (ExecResult.mk "HEAD\n" "").stdout)
    ∧ Effect.exec (pushCmd (detectBranch envC6 (initialConfig envC6) none).1 "origin")
        (initialConfig envC6).workingDir ∈
        (gitPush envC6 (initialConfig envC6) "m" none "origin").2 :=
  (push_branch_detection envC6 (initialConfig envC6) "m" "origin"
    ⟨"", ""⟩ ⟨"", ""⟩ rfl rfl).1 ⟨"HEAD\n", ""⟩ rfl

/-! ### C7 -/

lemma runSeq_no_load_config (env : Env) (mid : List Request)
    (hmid : ∀ r ∈ mid, r.name ≠ "load_config") (c : Config) :
    runSeq env c mid = c := by
  induction mid generalizing c with
  | nil => rfl
  | cons r t ih =>
    have hr : (dispatch env c r).2.1 = c :=
      dispatch_preserves_config env c r (hmid r (List.mem_cons_self r t))
    show runSeq env (dispatch env c r).2.1 t = c
    rw [hr]
    exact ih (fun x hx => hmid x (List.mem_cons_of_mem r hx)) c

/-- C7: `load_config` with `working_dir = p` followed (after any
operations, none of which is another `load_config`) by `get_config`
reports a working directory equal to the absolute resolution of `p`
against the process's original current directory — the handlers only read
the configuration, and the `cwd` requests resolve against is the
process-start one, never mutated. -/
theorem load_then_get_config_roundtrip (env : Env) (cfg : Config) (p : String)
    (mid : List Request) (hmid : ∀ r ∈ mid, r.name ≠ "load_config") :
    (dispatch env
        (runSeq env
          (dispatch env cfg ⟨"load_config", some [("working_dir", .str p)]⟩).2.1 mid)
        ⟨"get_config", some []⟩).1 =
      .ok (getConfigMsg
        ⟨pathResolve env.cwd0 p, pathJoin (pathResolve env.cwd0 p) logName⟩) := by
  have h1 : (dispatch env cfg ⟨"load_config", some [("working_dir", .str p)]⟩).2.1 =
      ⟨pathResolve env.cwd0 p, pathJoin (pathResolve env.cwd0 p) logName⟩ :=
    dispatch_load_config_sets env cfg (some [("working_dir", .str p)]) p rfl
  rw [h1, runSeq_no_load_config env mid hmid]
  rfl

/-- A benign environment for the C7 witness. -/
def envC7 : Env :=
  { cwd0 := "/home/user"
    exec := fun _ _ => .ok ⟨"", ""⟩
    existsSync := fun _ => true
    mkdirErr := fun _ => none }

/-- C7 witness: the round trip at a concrete relative path, with a
`get_pull` operation in between. -/
theorem load_then_get_config_roundtrip_witness :
    (dispatch envC7
        (runSeq envC7
          (dispatch envC7 (initialConfig envC7)
            ⟨"load_config", some [("working_dir", .str "./rel")]⟩).2.1
          [⟨"get_pull", none⟩])
        ⟨"get_config", some []⟩).1 =
      .ok (getConfigMsg
        ⟨pathResolve envC7.cwd0 "./rel", pathJoin (pathResolve envC7.cwd0 "./rel") logName⟩) :=
  load_then_get_config_roundtrip envC7 (initialConfig envC7) "./rel"
    [⟨"get_pull", none⟩]
    (by
      intro r hr
      rw [List.mem_singleton] at hr
      subst hr
      decide)

/-! ### C8 -/

/-- C8: a request naming an operation outside the fixed set of five yields
a failure citing the unknown tool with the offending name echoed, the
configuration is unchanged, and no subprocess is invoked. -/
theorem unknown_tool_fails (env : Env) (cfg : Config) (req : Request)
    (h1 : req.name ≠ "load_config") (h2 : req.name ≠ "get_config")
    (h3 : req.name ≠ "get_init") (h4 : req.name ≠ "get_pull")
    (h5 : req.name ≠ "get_push") :
    (dispatch env cfg req).1 = .error ("Unknown tool: " ++ req.name)
    ∧ (dispatch env cfg req).2.1 = cfg
    ∧ execsOf (dispatch env cfg req).2.2 = [] := by
  rcases req with ⟨name, args⟩
  simp only at h1 h2 h3 h4 h5
  have hd : dispatch env cfg ⟨name, args⟩ =
      (.error ("Unknown tool: " ++ name), cfg,
        logToFile env cfg.logFile ++ logToFile env cfg.logFile) := by
    unfold dispatch
    split
    · exact absurd (by assumption) h1
    · exact absurd (by assumption) h2
    · exact absurd (by assumption) h3
    · exact absurd (by assumption) h4
    · exact absurd (by assumption) h5
    · rfl
  refine ⟨by rw [hd], by rw [hd], ?_⟩
  rw [hd]
  show execsOf (logToFile env cfg.logFile ++ logToFile env cfg.logFile) = []
  rw [execsOf_append, execsOf_logToFile]
  rfl

/-- A benign environment for the C8 witness. -/
def envC8 : Env :=
  { cwd0 := "/x"
    exec := fun _ _ => .ok ⟨"", ""⟩
    existsSync := fun _ => true
    mkdirErr := fun _ => none }

/-- C8 witness: the concrete unknown tool name "frobnicate". -/
theorem unknown_tool_fails_witness :
    (dispatch envC8 (initialConfig envC8) ⟨"frobnicate", none⟩).1 =
      .error ("Unknown tool: " ++ "frobnicate")
    ∧ (dispatch envC8 (initialConfig envC8) ⟨"frobnicate", none⟩).2.1 =
        initialConfig envC8
    ∧ execsOf (dispatch envC8 (initialConfig envC8) ⟨"frobnicate", none⟩).2.2 = [] :=
  unknown_tool_fails envC8 (initialConfig envC8) ⟨"frobnicate", none⟩
    (by decide) (by decide) (by decide) (by decide) (by decide)

/-! ### C9 -/

/-- C9: `get_init` runs exactly the sequence `git init`, then
`git remote add origin "<remoteUrl>"`, then — only when a (truthy)
`defaultBranch` was provided — `git branch -M "<defaultBranch>"`; the
first failing step aborts all remaining steps, the operation fails with
`initFailMsg`, and that message contains the failing step's stderr. -/
theorem init_runs_exact_sequence (env : Env) (cfg : Config) (url : String)
    (db : Option String) :
    (∀ e, env.exec "git init" cfg.workingDir = .error e →
      (gitInit env cfg url db).1 = .error (initFailMsg e)
      ∧ execsOf (gitInit env cfg url db).2 = [("git init", cfg.workingDir)])
    ∧ (∀ r1 e, env.exec "git init" cfg.workingDir = .ok r1 →
        env.exec (remoteAddCmd url) cfg.workingDir = .error e →
        (gitInit env cfg url db).1 = .error (initFailMsg e)
        ∧ execsOf (gitInit env cfg url db).2 =
            [("git init", cfg.workingDir), (remoteAddCmd url, cfg.workingDir)])
    ∧ (∀ r1 r2 b e, env.exec "git init" cfg.workingDir = .ok r1 →
        env.exec (remoteAddCmd url) cfg.workingDir = .ok r2 →
        db = some b → strTruthy db = true →
        env.exec (branchRenameCmd b) cfg.workingDir = .error e →
        (gitInit env cfg url db).1 = .error (initFailMsg e)
        ∧ execsOf (gitInit env cfg url db).2 =
            [("git init", cfg.workingDir), (remoteAddCmd url, cfg.workingDir),
              (branchRenameCmd b, cfg.workingDir)])
    ∧ (∀ r1 r2, env.exec "git init" cfg.workingDir = .ok r1 →
        env.exec (remoteAddCmd url) cfg.workingDir = .ok r2 →
        strTruthy db = false →
        (gitInit env cfg url db).1 = .ok (initOkMsg cfg.workingDir db)
        ∧ execsOf (gitInit env cfg url db).2 =
            [("git init", cfg.workingDir), (remoteAddCmd url, cfg.workingDir)])
    ∧ (∀ r1 r2 r3 b, env.exec "git init" cfg.workingDir = .ok r1 →
        env.exec (remoteAddCmd url) cfg.workingDir = .ok r2 →
        db = some b → strTruthy db = true →
        env.exec (branchRenameCmd b) cfg.workingDir = .ok r3 →
        (gitInit env cfg url db).1 = .ok (initOkMsg cfg.workingDir db)
        ∧ execsOf (gitInit env cfg url db).2 =
            [("git init", cfg.workingDir), (remoteAddCmd url, cfg.workingDir),
              (branchRenameCmd b, cfg.workingDir)])
    ∧ (∀ e : ExecError, ∃ pre post, initFailMsg e = pre ++ e.stderr ++ post) := by
  refine ⟨?_, ?_, ?_, ?_, ?_, ?_⟩
  · intro e he
    have hd : gitInit env cfg url db =
        (.error (initFailMsg e),
          logToFile env cfg.logFile ++ [.exec "git init" cfg.workingDir]
            ++ logToFile env cfg.logFile) := by
      unfold gitInit
      simp only [he]
    rw [hd]
    refine ⟨rfl, ?_⟩
    simp [execsOf_append, execsOf_logToFile, execsOf_cons_exec, execsOf_nil]
  · intro r1 e h1 he
    have hd : gitInit env cfg url db =
        (.error (initFailMsg e),
          logToFile env cfg.logFile ++ [.exec "git init" cfg.workingDir]
            ++ logToFile env cfg.logFile ++ [.exec (remoteAddCmd url) cfg.workingDir]
            ++ logToFile env cfg.logFile) := by
      unfold gitInit
      simp only [h1, he]
    rw [hd]
    refine ⟨rfl, ?_⟩
    simp [execsOf_append, execsOf_logToFile, execsOf_cons_exec, execsOf_nil]
  · intro r1 r2 b e h1 h2 hb ht he
    subst hb
    have hd : gitInit env cfg url (some b) =
        (.error (initFailMsg e),
          logToFile env cfg.logFile ++ [.exec "git init" cfg.workingDir]
            ++ logToFile env cfg.logFile ++ [.exec (remoteAddCmd url) cfg.workingDir]
            ++ logToFile env cfg.logFile ++ [.exec (branchRenameCmd b) cfg.workingDir]
            ++ logToFile env cfg.logFile) := by
      unfold gitInit
      simp only [h1, h2, ht, if_true, Option.getD_some, he]
    rw [hd]
    refine ⟨rfl, ?_⟩
    simp [execsOf_append, execsOf_logToFile, execsOf_cons_exec, execsOf_nil]
  · intro r1 r2 h1 h2 ht
    have hd : gitInit env cfg url db =
        (.ok (initOkMsg cfg.workingDir db),
          logToFile env cfg.logFile ++ [.exec "git init" cfg.workingDir]
            ++ logToFile env cfg.logFile ++ [.exec (remoteAddCmd url) cfg.workingDir]) := by
      unfold gitInit
      simp only [h1, h2, ht, Bool.false_eq_true, if_false]
    rw [hd]
    refine ⟨rfl, ?_⟩
    simp [execsOf_append, execsOf_logToFile, execsOf_cons_exec, execsOf_nil]
  · intro r1 r2 r3 b h1 h2 hb ht h3
    subst hb
    have hd : gitInit env cfg url (some b) =
        (.ok (initOkMsg cfg.workingDir (some b)),
          logToFile env cfg.logFile ++ [.exec "git init" cfg.workingDir]
            ++ logToFile env cfg.logFile ++ [.exec (remoteAddCmd url) cfg.workingDir]
            ++ logToFile env cfg.logFile ++ [.exec (branchRenameCmd b) cfg.workingDir]) := by
      unfold gitInit
      simp only [h1, h2, ht, if_true, Option.getD_some, h3]
    rw [hd]
    refine ⟨rfl, ?_⟩
    simp [execsOf_append, execsOf_logToFile, execsOf_cons_exec, execsOf_nil]
  · intro e
    by_cases hs : e.stderr = ""
    · refine ⟨initFailMsg e, "", ?_⟩
      rw [hs, String.append_empty, String.append_empty]
    · refine ⟨"Failed to initialize Git repository: " ++ e.message ++ "\nstderr: ", "", ?_⟩
      rw [String.append_empty]
      unfold initFailMsg stderrSuffix
      rw [if_neg hs]
      simp only [String.append_assoc]

/-- An environment in which `git init` succeeds and the remote-add step
fails. -/
def envC9 : Env :=
  { cwd0 := "/proj"
    exec := fun c _ =>
      if c = "git init" then .ok ⟨"Initialized empty Git repository", ""⟩
      else .error ⟨"Command failed: git remote add", "error: remote origin already exists"⟩
    existsSync := fun _ => true
    mkdirErr := fun _ => none }

/-- C9 witness: with the remote-add step failing, the branch step is never
run, the executed commands are exactly `git init` then the remote add, and
the operation fails with the combined message. -/
theorem init_runs_exact_sequence_witness :
    (gitInit envC9 (initialConfig envC9) "git@github.com:u/r.git" (some "main")).1 =
      .error (initFailMsg
        ⟨"Command failed: git remote add", "error: remote origin already exists"⟩)
    ∧ execsOf (gitInit envC9 (initialConfig envC9) "git@github.com:u/r.git"
        (some "main")).2 =
      [("git init", (initialConfig envC9).workingDir),
        (remoteAddCmd "git@github.com:u/r.git", (initialConfig envC9).workingDir)] :=
  (init_runs_exact_sequence envC9 (initialConfig envC9) "git@github.com:u/r.git"
      (some "main")).2.1
    ⟨"Initialized empty Git repository", ""⟩
    ⟨"Command failed: git remote add", "error: remote origin already exists"⟩
    rfl rfl

end GithubMcp
